import Mathlib

/-!
Verification of the resource-store adapter (the Loki-backed SCIM entitlements
plugin).  The definitions below are a shallow embedding of the plugin source
(`plugin-loki-entitlements.ts`): the per-tenant Loki collections are modelled
as explicit lists passed in and returned, the wall clock and the id generator
are parameters, and thrown JS errors become `Except.error` values carrying the
`err.name` tag (when the source sets one) and the message string.
-/

/-! ## JavaScript string primitives used by the source -/

/-- Embeds the ASCII whitespace characters trimmed by JS `parseInt`. -/
def isWsChar (c : Char) : Bool :=
  decide (c.toNat = 32 ∨ c.toNat = 9 ∨ c.toNat = 10 ∨ c.toNat = 13 ∨ c.toNat = 12 ∨ c.toNat = 11)

/-- Decimal digit test on a character. -/
def isDigitChar (c : Char) : Bool :=
  decide (48 ≤ c.toNat ∧ c.toNat ≤ 57)

/-- ASCII lower-casing of one character, as done by a case-insensitive regex. -/
def lowerChar (c : Char) : Char :=
  if 65 ≤ c.toNat ∧ c.toNat ≤ 90 then Char.ofNat (c.toNat + 32) else c

/-- ASCII lower-casing of a string (JS `toLowerCase` / regex flag `i`). -/
def lowerStr (s : String) : String :=
  String.mk (s.data.map lowerChar)

/-- Substring test on character lists (JS `String.prototype.includes`). -/
def listContainsSub : List Char → List Char → Bool
  | [], nee => nee.isEmpty
  | c :: t, nee => if nee.isPrefixOf (c :: t) then true else listContainsSub t nee

/-- Replace the first occurrence of `pat` (a nonempty plain string) by `rep`,
as JS `String.prototype.replace` with a string pattern does. -/
def replaceFirstAux : List Char → List Char → List Char → List Char
  | [], _, _ => []
  | c :: t, pat, rep =>
    if pat.isPrefixOf (c :: t) then rep ++ (c :: t).drop pat.length
    else c :: replaceFirstAux t pat rep

/-- String wrapper for `replaceFirstAux`. -/
def replaceFirst (s pat rep : String) : String :=
  String.mk (replaceFirstAux s.data pat.data rep.data)

/-- Leading decimal digits of a character list, as JS `parseInt` reads them;
`none` when no digit is found (the `NaN` outcome). -/
def parseDigits (cs : List Char) : Option Nat :=
  let ds := cs.takeWhile isDigitChar
  if ds.isEmpty then none
  else some (ds.foldl (fun a c => a * 10 + (c.toNat - 48)) 0)

/-- The minus sign character. -/
def minusChar : Char := Char.ofNat 45

/-- The plus sign character. -/
def plusChar : Char := Char.ofNat 43

/-- Embeds JS `parseInt(s)` (decimal): trim leading whitespace, optional sign,
leading digits; `none` models `NaN`. -/
def parseIntChars (cs : List Char) : Option Int :=
  match cs.dropWhile isWsChar with
  | [] => none
  | c :: rest =>
    if c = minusChar then (parseDigits rest).map (fun n => -(n : Int))
    else if c = plusChar then (parseDigits rest).map (fun n => (n : Int))
    else (parseDigits (c :: rest)).map (fun n => (n : Int))

/-- JS `parseInt` on a Lean string. -/
def parseIntJS (s : String) : Option Int :=
  parseIntChars s.data

/-- Decimal digits of `n`, most significant first; the first argument is
structural fuel (any fuel above `n` gives the digits of `n`). -/
def natDigitsAux : Nat → Nat → List Char
  | 0, _ => []
  | f + 1, n =>
    if n < 10 then [Nat.digitChar n]
    else natDigitsAux f (n / 10) ++ [Nat.digitChar (n % 10)]

/-- Decimal printing of a natural number (JS number-to-string for integers). -/
def natPrint (n : Nat) : String :=
  String.mk (natDigitsAux (n + 1) n)

/-- Decimal printing of an integer (JS number-to-string for integers). -/
def intPrint (i : Int) : String :=
  if i < 0 then String.mk (minusChar :: (natPrint i.natAbs).data) else natPrint i.natAbs

/-- The double-quote character. -/
def quoteChar : Char := Char.ofNat 34

/-- The string `W/"` that opens a weak version tag. -/
def wQuote : String := String.mk ['W', '/', quoteChar]

/-- A string holding one double quote. -/
def quoteStr : String := String.mk [quoteChar]

/-- The canonical weak version tag for counter `n`. -/
def versionTag (n : Nat) : String := wQuote ++ natPrint n ++ quoteStr

/-- Embeds the version advance of `modifyUser`/`modifyGroup`:
`'W/"' + (parseInt(version?.replace('W/"','').replace('"','') || '0') + 1) + '"'`.
A missing tag (and, via JS falsiness, an empty stripped tag) falls back to
`'0'`; a stripped tag with no leading integer makes `parseInt` return `NaN`,
and `NaN + 1` prints as `NaN`. -/
def nextVersion (v : Option String) : String :=
  let stripped := match v with
    | none => none
    | some s => some (replaceFirst (replaceFirst s wQuote ("")) quoteStr (""))
  let base := match stripped with
    | none => "0"
    | some s => if s = ("") then ("0") else s
  match parseIntJS base with
  | some i => wQuote ++ intPrint (i + 1) ++ quoteStr
  | none => wQuote ++ ("NaN") ++ quoteStr

/-- JS `o || d` for an optional string field: absent and empty are falsy. -/
def jsOrStr (o : Option String) (d : String) : String :=
  match o with
  | none => d
  | some s => if s = ("") then d else s

/-- JS falsiness of an optional string (`!scimdata.userName`). -/
def jsFalsyStr (o : Option String) : Bool :=
  match o with
  | none => true
  | some s => s == ("")

/-- JS `o || d` for an optional numeric field: absent and `0` are falsy. -/
def jsOrNat (o : Option Nat) (d : Nat) : Nat :=
  match o with
  | none => d
  | some 0 => d
  | some n => n

/-! ## Data model

Records carry the fields the source reads or writes.  The open attribute bag
of users and groups is an association list; Loki internals (`$loki`, `meta`
bookkeeping of the engine itself) are not part of the logical record. -/

/-- An entitlement grant embedded in a user record (denormalized snapshot).
`primary` is optional because the seeded records omit it on some grants. -/
structure Grant where
  value : String
  display : String
  type : String
  primary : Option Bool := none
deriving DecidableEq

/-- SCIM resource metadata as stamped by `createUser`/`createGroup`. -/
structure Meta where
  resourceType : String
  created : String
  lastModified : String
  version : Option String
deriving DecidableEq

/-- A user record of the `users` collection. -/
structure User where
  id : String
  userName : String
  externalId : Option String := none
  groupValues : List String := []
  entitlements : List Grant := []
  attrs : List (String × String) := []
  meta : Option Meta := none
deriving DecidableEq

/-- A group record of the `groups` collection. -/
structure GroupRec where
  id : String
  displayName : String
  externalId : Option String := none
  memberValues : List String := []
  attrs : List (String × String) := []
  meta : Option Meta := none
deriving DecidableEq

/-- An entitlement record of the `entitlements` collection. -/
structure Ent where
  id : String
  displayName : String
  type : String
  description : String
deriving DecidableEq

/-- The error value of a thrown JS `Error`: the optional `err.name` tag the
source sets for scimType mapping, and the message. -/
structure Err where
  name : Option String
  message : String
deriving DecidableEq

/-- The three regular-expression shapes the source constructs:
`new RegExp('^v.*')` for `sw`, `new RegExp('.*v$')` for `ew`, and
`['^v$', 'i']` for the case-insensitive unique lookup.  `v` is taken as a
literal (the source never escapes regex metacharacters; the claims only
exercise metacharacter-free values). -/
inductive RegexPat where
  | startsWithPat (s : String)
  | endsWithPat (s : String)
  | ciExact (s : String)
deriving DecidableEq

/-- A filter value: a plain string or a constructed pattern. -/
inductive Value where
  | str (s : String)
  | pat (p : RegexPat)
deriving DecidableEq

/-- The `getObj` query descriptor handed to `getUsers`/`getGroups`/
`getEntitlements`. -/
structure GetObj where
  operator : Option String := none
  attrib : String := ""
  value : Value := Value.str ("")
  rawFilter : Option String := none
  startIndex : Option Nat := none
  count : Option Nat := none
deriving DecidableEq

/-- The `{Resources, totalResults}` page returned by the read operations. -/
structure ListResponse (α : Type) where
  Resources : List α
  totalResults : Nat
deriving DecidableEq

/-! ## Filter translation and Loki predicate evaluation -/

/-- JS template stringification of a constructed pattern (never hit by the
claims; present so `valShow` is total). -/
def patShow : RegexPat → String
  | RegexPat.startsWithPat s => ("/^") ++ s ++ (".*/")
  | RegexPat.endsWithPat s => ("/.*") ++ s ++ ("$/")
  | RegexPat.ciExact s => ("/^") ++ s ++ ("$/i")

/-- JS template stringification of a filter value. -/
def valShow : Value → String
  | Value.str s => s
  | Value.pat p => patShow p

/-- RegExp test for the three constructed shapes (metacharacter-free `v`). -/
def patTest (p : RegexPat) (s : String) : Bool :=
  match p with
  | RegexPat.startsWithPat w => w.data.isPrefixOf s.data
  | RegexPat.endsWithPat w => w.data.isSuffixOf s.data
  | RegexPat.ciExact w => lowerStr s == lowerStr w

/-- Loki coerces a missing field to the string `undefined` inside a regex
test (`RegExp.test(undefined)` stringifies its argument). -/
def fieldOrUndef (o : Option String) : String := o.getD ("undefined")

/-- One Loki operator applied to a field value.  `$eq`/`$ne` are strict
equality, `$contains` is substring on strings, `$regex` tests the constructed
pattern.  The remaining pass-through native operators (`$gte`, `$between`,
`$in`, ...) are not exercised by any claim and are modelled as non-matching. -/
def lokiMatch (op : String) (v : Value) (field : Option String) : Bool :=
  if op = ("$eq") then
    match v with
    | Value.str s => field == some s
    | Value.pat _ => false
  else if op = ("$ne") then
    match v with
    | Value.str s => !(field == some s)
    | Value.pat _ => true
  else if op = ("$contains") then
    match v, field with
    | Value.str s, some f => listContainsSub f.data s.data
    | _, _ => false
  else if op = ("$regex") then
    match v with
    | Value.pat p => patTest p (fieldOrUndef field)
    | Value.str _ => false
  else false

/-- The native operator names accepted for pass-through, from the source's
`validFilterOperators`. -/
def validFilterOperators : List String :=
  ["eq", "ne", "aeq", "dteq", "gt", "gte", "lt", "lte", "between", "jgt", "jgte", "jlt",
   "jlte", "jbetween", "regex", "in", "nin", "keyin", "nkeyin", "definedin", "undefinedin",
   "contains", "containsAny", "type", "finite", "size", "len", "exists"]

/-- The operator list as it appears in the invalid-operator message. -/
def opListMsg : String :=
  String.intercalate (",") validFilterOperators ++ (",co,ge,le,sw,ew")

/-- Embeds the `switch (getObj.operator)` conversion block shared by
`getUsers`, `getGroups` and `getEntitlements`.  The source assigns into
`getObj` in place; the embedding returns the updated object, which is what
the caller-supplied object looks like after the call. -/
def translateGetObj (act : String) (g : GetObj) : Except Err GetObj :=
  match g.operator with
  | none => Except.ok g
  | some op =>
    if op = ("co") then Except.ok { g with operator := some ("$contains") }
    else if op = ("ge") then Except.ok { g with operator := some ("$gte") }
    else if op = ("le") then Except.ok { g with operator := some ("$lte") }
    else if op = ("sw") then
      Except.ok { g with operator := some ("$regex"),
                         value := Value.pat (RegexPat.startsWithPat (valShow g.value)) }
    else if op = ("ew") then
      Except.ok { g with operator := some ("$regex"),
                         value := Value.pat (RegexPat.endsWithPat (valShow g.value)) }
    else if validFilterOperators.contains op then
      Except.ok { g with operator := some (("$") ++ op) }
    else
      Except.error ⟨some ("invalidFilter"),
        act ++ (" error: filter operator \x27") ++ op ++
        ("\x27 is not valid, valid operators for this endpoint are: ") ++ opListMsg⟩

/-- The `[$regex, [^v$, i]]` query value built in the unique-lookup branch. -/
def ciExactOf (v : Value) : Value :=
  Value.pat (RegexPat.ciExact (valShow v))

/-- Field access on a user record (Loki reads the named property). -/
def User.field (u : User) (attr : String) : Option String :=
  if attr = ("id") then some u.id
  else if attr = ("userName") then some u.userName
  else if attr = ("externalId") then u.externalId
  else u.attrs.lookup attr

/-- Field access on a group record. -/
def GroupRec.field (gr : GroupRec) (attr : String) : Option String :=
  if attr = ("id") then some gr.id
  else if attr = ("displayName") then some gr.displayName
  else if attr = ("externalId") then gr.externalId
  else gr.attrs.lookup attr

/-- Field access on an entitlement record. -/
def Ent.field (e : Ent) (attr : String) : Option String :=
  if attr = ("id") then some e.id
  else if attr = ("displayName") then some e.displayName
  else if attr = ("type") then some e.type
  else if attr = ("description") then some e.description
  else none

/-- The identifying attributes of the users unique-lookup branch. -/
def userIdentifying : List String := [("id"), ("userName"), ("externalId")]

/-- The identifying attributes of the groups unique-lookup branch. -/
def groupIdentifying : List String := [("id"), ("displayName"), ("externalId")]

/-- The identifying attributes of the entitlements unique-lookup branch. -/
def entIdentifying : List String := [("id"), ("displayName"), ("type")]

/-- The unique-lookup query of `getUsers`: `{id: value}` exact for the
identifier, `{attr: {$regex: ['^value$','i']}}` otherwise. -/
def uniqueFindUser (users : List User) (attr : String) (v : Value) : List User :=
  if attr = ("id") then users.filter (fun u => lokiMatch ("$eq") v (User.field u attr))
  else users.filter (fun u => lokiMatch ("$regex") (ciExactOf v) (User.field u attr))

/-- The unique-lookup query of `getGroups`. -/
def uniqueFindGroup (groups : List GroupRec) (attr : String) (v : Value) : List GroupRec :=
  if attr = ("id") then groups.filter (fun gr => lokiMatch ("$eq") v (GroupRec.field gr attr))
  else groups.filter (fun gr => lokiMatch ("$regex") (ciExactOf v) (GroupRec.field gr attr))

/-- The unique-lookup query of `getEntitlements`. -/
def uniqueFindEnt (ents : List Ent) (attr : String) (v : Value) : List Ent :=
  if attr = ("id") then ents.filter (fun e => lokiMatch ("$eq") v (Ent.field e attr))
  else ents.filter (fun e => lokiMatch ("$regex") (ciExactOf v) (Ent.field e attr))

/-- The message of the advanced-filtering rejection (a plain `Error` with no
`err.name`). -/
def rawFilterMsg (act : String) (r : String) : String :=
  act ++ (" error: not supporting advanced filtering: ") ++ r

/-! ## Read pipelines -/

/-- The match phase of `getUsers` (translation plus the mandatory if-else
logic), before pagination. -/
def usersMatch (users : List User) (g : GetObj) : Except Err (List User) :=
  match translateGetObj ("getUsers") g with
  | Except.error e => Except.error e
  | Except.ok g =>
    match g.operator with
    | some op =>
      if op == ("$eq") && userIdentifying.contains g.attrib then
        Except.ok (uniqueFindUser users g.attrib g.value)
      else if op == ("$eq") && g.attrib == ("group.value") then
        Except.ok (users.filter (fun u => u.groupValues.contains (valShow g.value)))
      else
        Except.ok (users.filter (fun u => lokiMatch op g.value (User.field u g.attrib)))
    | none =>
      match g.rawFilter with
      | some r => Except.error ⟨none, rawFilterMsg ("getUsers") r⟩
      | none => Except.ok users

/-- The match phase of `getGroups`. -/
def groupsMatch (groups : List GroupRec) (g : GetObj) : Except Err (List GroupRec) :=
  match translateGetObj ("getGroups") g with
  | Except.error e => Except.error e
  | Except.ok g =>
    match g.operator with
    | some op =>
      if op == ("$eq") && groupIdentifying.contains g.attrib then
        Except.ok (uniqueFindGroup groups g.attrib g.value)
      else if op == ("$eq") && g.attrib == ("members.value") then
        Except.ok (groups.filter (fun gr => gr.memberValues.contains (valShow g.value)))
      else
        Except.ok (groups.filter (fun gr => lokiMatch op g.value (GroupRec.field gr g.attrib)))
    | none =>
      match g.rawFilter with
      | some r => Except.error ⟨none, rawFilterMsg ("getGroups") r⟩
      | none => Except.ok groups

/-- The match phase of `getEntitlements`. -/
def entsMatch (ents : List Ent) (g : GetObj) : Except Err (List Ent) :=
  match translateGetObj ("getEntitlements") g with
  | Except.error e => Except.error e
  | Except.ok g =>
    match g.operator with
    | some op =>
      if op == ("$eq") && entIdentifying.contains g.attrib then
        Except.ok (uniqueFindEnt ents g.attrib g.value)
      else
        Except.ok (ents.filter (fun e => lokiMatch op g.value (Ent.field e g.attrib)))
    | none =>
      match g.rawFilter with
      | some r => Except.error ⟨none, rawFilterMsg ("getEntitlements") r⟩
      | none => Except.ok ents

/-- The pagination of all three read operations:
`startIndex || 1`, `count || 100`, `slice(max(0, startIndex-1), start+count)`. -/
def paginate {α : Type} (l : List α) (si cnt : Option Nat) : List α :=
  let s := jsOrNat si 1
  let c := jsOrNat cnt 100
  (l.drop (s - 1)).take c

/-- The full `getUsers` read operation. -/
def getUsers (users : List User) (g : GetObj) : Except Err (ListResponse User) :=
  match usersMatch users g with
  | Except.error e => Except.error e
  | Except.ok arr => Except.ok ⟨paginate arr g.startIndex g.count, arr.length⟩

/-- The full `getGroups` read operation. -/
def getGroups (groups : List GroupRec) (g : GetObj) : Except Err (ListResponse GroupRec) :=
  match groupsMatch groups g with
  | Except.error e => Except.error e
  | Except.ok arr => Except.ok ⟨paginate arr g.startIndex g.count, arr.length⟩

/-- The full `getEntitlements` read operation. -/
def getEntitlements (ents : List Ent) (g : GetObj) : Except Err (ListResponse Ent) :=
  match entsMatch ents g with
  | Except.error e => Except.error e
  | Except.ok arr => Except.ok ⟨paginate arr g.startIndex g.count, arr.length⟩

/-- Seeded entitlement `entitlement-123`. -/
def entPro : Ent :=
  ⟨("entitlement-123"), ("Pro License"), ("License"), ("Professional license with full features")⟩

/-- Seeded entitlement `entitlement-456`. -/
def entBasic : Ent :=
  ⟨("entitlement-456"), ("Basic License"), ("License"), ("Basic license with limited features")⟩

/-- Seeded entitlement `entitlement-789`. -/
def entAdmin : Ent :=
  ⟨("entitlement-789"), ("Admin Access"), ("Permission"), ("Administrative access to the system")⟩

/-- Seeded entitlement `entitlement-abc`. -/
def entSupport : Ent :=
  ⟨("entitlement-abc"), ("Premium Support"), ("Support"), ("Premium customer support access")⟩

/-- The seeded test entitlements loaded by the plugin in memory-only mode. -/
def testEntitlements : List Ent := [entPro, entBasic, entAdmin, entSupport]

deriving instance DecidableEq for Except

/-! ## Mutators -/

/-- One entry of a PATCH entitlements list. -/
structure PatchEntry where
  operation : Option String := none
  value : String
  display : Option String := none
  type : Option String := none
  primary : Option Bool := none
deriving DecidableEq

/-- The grant appended by an `add` entry:
`{value, display: display || value, type: type || 'License', primary: primary || false}`. -/
def mkGrant (e : PatchEntry) : Grant :=
  ⟨e.value, jsOrStr e.display e.value, jsOrStr e.type ("License"), some (e.primary.getD false)⟩

/-- One iteration of the entitlements loop of `modifyUser`: `add` appends
when no grant with the same `value` exists, `remove` filters that `value`
out, anything else leaves the list alone. -/
def applyEntitlementOp (gs : List Grant) (e : PatchEntry) : List Grant :=
  if e.operation == some ("add") then
    if gs.any (fun g => g.value == e.value) then gs else gs ++ [mkGrant e]
  else if e.operation == some ("remove") then
    gs.filter (fun g => !(g.value == e.value))
  else gs

/-- The whole entitlements loop, entries processed in order. -/
def applyEntitlementOps (gs : List Grant) (l : List PatchEntry) : List Grant :=
  l.foldl applyEntitlementOp gs

/-- The PATCH payload of `modifyUser`: the optional entitlements list is
handled (then deleted) before the remaining keys are shallow-merged. -/
structure UserScim where
  entitlements : Option (List PatchEntry) := none
  userName : Option String := none
  externalId : Option String := none
  attrs : List (String × String) := []
deriving DecidableEq

/-- Set one key of an association-list object. -/
def setAttr (l : List (String × String)) (k v : String) : List (String × String) :=
  if l.any (fun p => p.1 == k) then l.map (fun p => if p.1 == k then (k, v) else p)
  else l ++ [(k, v)]

/-- Shallow merge of the remaining patch keys, skipping `id` and `meta` as
the source's `Object.keys` loop does. -/
def mergeAttrs (base upd : List (String × String)) : List (String × String) :=
  (upd.filter (fun p => !(p.1 == ("id")) && !(p.1 == ("meta")))).foldl
    (fun acc p => setAttr acc p.1 p.2) base

/-- Shallow merge of a user patch into the stored record (never touches
`id`, `meta` or `entitlements`). -/
def mergeUserScim (u : User) (sd : UserScim) : User :=
  { u with userName := sd.userName.getD u.userName,
           externalId := match sd.externalId with | some s => some s | none => u.externalId,
           attrs := mergeAttrs u.attrs sd.attrs }

/-- Metadata advance on a successful update: `lastModified = now` and the
version counter re-encoded by `nextVersion`. -/
def stampMeta (m : Meta) (now : String) : Meta :=
  { m with lastModified := now, version := some (nextVersion m.version) }

/-- The `notFound`-tagged error thrown when a record id does not exist. -/
def notFoundErr (act what id : String) : Err :=
  ⟨some ("notFound"), act ++ (" error: ") ++ what ++ (" id=") ++ id ++ (" does not exist")⟩

/-- The entitlements half of `modifyUser`: when the patch carries an
entitlements array, run the add/remove loop over it (the field is deleted
from the patch afterwards, which the separate `entitlements` field of
`UserScim` already encodes). -/
def reconcileEntitlements (u : User) (o : Option (List PatchEntry)) : User :=
  match o with
  | some ops => { u with entitlements := applyEntitlementOps u.entitlements ops }
  | none => u

/-- The `if (user.meta)` block of `modifyUser`: records without metadata are
left unstamped. -/
def stampUserMeta (u : User) (now : String) : User :=
  match u.meta with
  | none => u
  | some m => { u with meta := some (stampMeta m now) }

/-- The successful path of `modifyUser` on the found record: entitlements
loop, shallow merge, metadata stamp. -/
def applyUserPatch (u : User) (sd : UserScim) (now : String) : User :=
  stampUserMeta (mergeUserScim (reconcileEntitlements u sd.entitlements) sd) now

/-- Embeds `scimgateway.modifyUser`: look up by id (else `notFound`),
reconcile the entitlements list, shallow-merge the rest, advance metadata
when the record has any, and store the updated record. -/
def modifyUser (users : List User) (id : String) (sd : UserScim) (now : String) :
    Except Err (List User × User) :=
  match users.find? (fun u => u.id == id) with
  | none => Except.error (notFoundErr ("modifyUser") ("user") id)
  | some u =>
    Except.ok (users.map (fun v => if v.id == id then applyUserPatch u sd now else v),
               applyUserPatch u sd now)

/-- The PATCH payload of `modifyGroup`. -/
structure GroupScim where
  displayName : Option String := none
  externalId : Option String := none
  attrs : List (String × String) := []
deriving DecidableEq

/-- Shallow merge of a group patch into the stored record. -/
def mergeGroupScim (gr : GroupRec) (sd : GroupScim) : GroupRec :=
  { gr with displayName := sd.displayName.getD gr.displayName,
            externalId := match sd.externalId with | some s => some s | none => gr.externalId,
            attrs := mergeAttrs gr.attrs sd.attrs }

/-- The `if (group.meta)` block of `modifyGroup`. -/
def stampGroupMeta (gr : GroupRec) (now : String) : GroupRec :=
  match gr.meta with
  | none => gr
  | some m => { gr with meta := some (stampMeta m now) }

/-- The successful path of `modifyGroup` on the found record. -/
def applyGroupPatch (gr : GroupRec) (sd : GroupScim) (now : String) : GroupRec :=
  stampGroupMeta (mergeGroupScim gr sd) now

/-- Embeds `scimgateway.modifyGroup`. -/
def modifyGroup (groups : List GroupRec) (id : String) (sd : GroupScim) (now : String) :
    Except Err (List GroupRec × GroupRec) :=
  match groups.find? (fun gr => gr.id == id) with
  | none => Except.error (notFoundErr ("modifyGroup") ("group") id)
  | some gr =>
    Except.ok (groups.map (fun v => if v.id == id then applyGroupPatch gr sd now else v),
               applyGroupPatch gr sd now)

/-- The update payload of `modifyEntitlement`; a field set to `some` (even
the empty string) overwrites, since the source tests `!== undefined`. -/
structure EntScim where
  displayName : Option String := none
  type : Option String := none
  description : Option String := none
deriving DecidableEq

/-- Embeds `scimgateway.modifyEntitlement`: look up by id (else `notFound`),
overwrite exactly the supplied fields, no metadata for this kind. -/
def modifyEntitlement (ents : List Ent) (id : String) (sd : EntScim) :
    Except Err (List Ent × Ent) :=
  match ents.find? (fun e => e.id == id) with
  | none => Except.error (notFoundErr ("modifyEntitlement") ("entitlement") id)
  | some e =>
    let e1 : Ent := { e with displayName := sd.displayName.getD e.displayName,
                             type := sd.type.getD e.type,
                             description := sd.description.getD e.description }
    Except.ok (ents.map (fun x => if x.id == id then e1 else x), e1)

/-- The creation payload of `createUser` (the caller-supplied bag is
deep-copied by the source; only fields the claims read are modelled, and the
collection insert appends the copied record). -/
structure CreateUserData where
  userName : Option String := none
  externalId : Option String := none
  attrs : List (String × String) := []
deriving DecidableEq

/-- The record built and stored by a successful `createUser`: the copied
bag, a generated id, and fresh metadata with `created = lastModified = now`
and version `W/"1"`. -/
def newUserRecord (sd : CreateUserData) (newId now : String) : User :=
  { id := newId, userName := sd.userName.getD (""), externalId := sd.externalId,
    attrs := sd.attrs, meta := some ⟨("User"), now, now, some ("W/\"1\"")⟩ }

/-- Embeds `scimgateway.createUser`: require a truthy `userName`, reject an
exact duplicate `userName` with a `uniqueness` error, then build the record
with a generated id and fresh metadata (`created = lastModified = now`,
version `W/"1"`) and insert it.  The final guard embeds Loki's unique index
on `id`/`userName` (exact matches), which throws an untagged error; the
`userName` half can never fire after the explicit check, and the `id` half
needs a colliding generated id.  The two `new Date()` calls of the source
are modelled with the one `now` timestamp of the call. -/
def createUser (users : List User) (sd : CreateUserData) (newId now : String) :
    Except Err (List User × User) :=
  if jsFalsyStr sd.userName then
    Except.error ⟨some ("invalidValue"), ("createUser error: userName is required")⟩
  else
    let s := sd.userName.getD ("")
    if users.any (fun u => u.userName == s) then
      Except.error ⟨some ("uniqueness"),
        ("createUser error: user with userName \x27") ++ s ++ ("\x27 already exists")⟩
    else
      if users.any (fun v => v.id == newId || v.userName == s) then
        Except.error ⟨none, ("Duplicate key for property id: ") ++ newId⟩
      else
        Except.ok (users ++ [newUserRecord sd newId now], newUserRecord sd newId now)

/-! ## Concrete sample data used by the claim theorems -/

/-- A sample metadata value with the canonical fresh version tag. -/
def metaV1 (rt : String) : Meta := ⟨rt, ("t0"), ("t0"), some ("W/\"1\"")⟩

/-- A sample user carrying metadata with a malformed version tag. -/
def userAbc : User :=
  { id := ("u1"), userName := ("bj"), meta := some ⟨("User"), ("t0"), ("t0"), some ("abc")⟩ }

/-- A sample user carrying metadata with version `W/"1"`. -/
def userV1 : User := { id := ("u1"), userName := ("bj"), meta := some (metaV1 ("User")) }

/-- A sample group carrying metadata with version `W/"1"`. -/
def groupV1 : GroupRec := { id := ("g1"), displayName := ("admins"), meta := some (metaV1 ("Group")) }

/-- The record stored by the first create of the C9 counterexample. -/
def aliceUpper : User :=
  { id := ("id1"), userName := ("Alice"), meta := some ⟨("User"), ("t0"), ("t0"), some ("W/\"1\"")⟩ }

/-- The record stored by the second create of the C9 counterexample. -/
def aliceLower : User :=
  { id := ("id2"), userName := ("alice"), meta := some ⟨("User"), ("t0"), ("t0"), some ("W/\"1\"")⟩ }

/-- The concrete query of the C8 counterexample. -/
def c8Query : GetObj :=
  { operator := some ("co"), attrib := ("userName"), value := Value.str ("a") }

/-- The query of the C1 counterexample. -/
def c1Query : GetObj :=
  { operator := some ("eq"), attrib := ("type"), value := Value.str ("License") }

/-- The users query of the C1 witness. -/
def c1qUser : GetObj :=
  { operator := some ("eq"), attrib := ("userName"), value := Value.str ("BJ") }

/-- The groups query of the C1 witness. -/
def c1qGroup : GetObj :=
  { operator := some ("eq"), attrib := ("id"), value := Value.str ("g1") }

/-- The entitlements query of the C1 witness. -/
def c1qEnt : GetObj :=
  { operator := some ("eq"), attrib := ("displayName"), value := Value.str ("pro license") }

/-! ## Lemmas about decimal printing and `parseInt` -/

lemma digitChar_isDigit (d : Nat) (h : d < 10) : isDigitChar (Nat.digitChar d) = true := by
  interval_cases d <;> rfl

lemma digitChar_toNat (d : Nat) (h : d < 10) : (Nat.digitChar d).toNat = 48 + d := by
  interval_cases d <;> rfl

lemma natDigitsAux_spec (f : Nat) : ∀ n, n < f →
    natDigitsAux f n ≠ [] ∧
    (∀ c ∈ natDigitsAux f n, isDigitChar c = true) ∧
    (∀ a : Nat, (natDigitsAux f n).foldl (fun acc c => acc * 10 + (c.toNat - 48)) a
        = a * 10 ^ (natDigitsAux f n).length + n) := by
  induction f with
  | zero => intro n h; omega
  | succ f ih =>
    intro n h
    by_cases h10 : n < 10
    · refine ⟨by simp [natDigitsAux, h10], ?_, ?_⟩
      · intro c hc
        simp [natDigitsAux, h10] at hc
        simpa [hc] using digitChar_isDigit n h10
      · intro a
        simp [natDigitsAux, h10, List.foldl, digitChar_toNat n h10]
    · have hdiv : n / 10 < f := by omega
      obtain ⟨hne, hdig, hfold⟩ := ih (n / 10) hdiv
      have hmod : n % 10 < 10 := Nat.mod_lt _ (by omega)
      refine ⟨by simp [natDigitsAux, h10], ?_, ?_⟩
      · intro c hc
        simp only [natDigitsAux, if_neg h10, List.mem_append, List.mem_singleton] at hc
        rcases hc with hc | hc
        · exact hdig c hc
        · simpa [hc] using digitChar_isDigit (n % 10) hmod
      · intro a
        simp only [natDigitsAux, if_neg h10, List.foldl_append, List.foldl,
          List.length_append, List.length_singleton]
        rw [hfold a, digitChar_toNat (n % 10) hmod]
        have hdm : 10 * (n / 10) + n % 10 = n := Nat.div_add_mod n 10
        calc (a * 10 ^ (natDigitsAux f (n / 10)).length + n / 10) * 10 + (48 + n % 10 - 48)
            = a * (10 ^ (natDigitsAux f (n / 10)).length * 10) + (10 * (n / 10) + n % 10) := by
              rw [Nat.add_sub_cancel_left]; ring
          _ = a * 10 ^ ((natDigitsAux f (n / 10)).length + 1) + n := by rw [hdm, pow_succ]

lemma takeWhile_all (p : Char → Bool) : ∀ l : List Char, (∀ c ∈ l, p c = true) → l.takeWhile p = l := by
  intro l h
  induction l with
  | nil => rfl
  | cons c t ih =>
    rw [List.takeWhile_cons, h c (List.mem_cons_self _ _), if_pos rfl,
      ih (fun x hx => h x (List.mem_cons_of_mem _ hx))]

lemma parseDigits_natDigits (n : Nat) : parseDigits (natDigitsAux (n + 1) n) = some n := by
  obtain ⟨hne, hdig, hfold⟩ := natDigitsAux_spec (n + 1) n (by omega)
  have htake := takeWhile_all isDigitChar (natDigitsAux (n + 1) n) hdig
  simp only [parseDigits, htake]
  rw [if_neg (by simpa using hne)]
  rw [hfold 0]
  simp

lemma isDigit_not_ws (c : Char) (h : isDigitChar c = true) : isWsChar c = false := by
  simp only [isDigitChar, decide_eq_true_eq] at h
  simp only [isWsChar, decide_eq_false_iff_not]
  omega

lemma isDigit_ne_minus (c : Char) (h : isDigitChar c = true) : c ≠ minusChar := by
  intro hc
  rw [hc] at h
  exact absurd h (by decide)

lemma isDigit_ne_plus (c : Char) (h : isDigitChar c = true) : c ≠ plusChar := by
  intro hc
  rw [hc] at h
  exact absurd h (by decide)

lemma parseIntChars_natDigits (n : Nat) : parseIntChars (natDigitsAux (n + 1) n) = some (n : Int) := by
  obtain ⟨hne, hdig, _⟩ := natDigitsAux_spec (n + 1) n (by omega)
  obtain ⟨d, t, hdt⟩ := List.exists_cons_of_ne_nil hne
  have hd : isDigitChar d = true := hdig d (by rw [hdt]; exact List.mem_cons_self _ _)
  rw [parseIntChars, hdt, List.dropWhile_cons, isDigit_not_ws d hd]
  simp only [Bool.false_eq_true, if_false]
  rw [if_neg (isDigit_ne_minus d hd), if_neg (isDigit_ne_plus d hd), ← hdt,
    parseDigits_natDigits]
  rfl

lemma strip_wquote (l : List Char) :
    replaceFirstAux (('W') :: ('/') :: quoteChar :: l) [('W'), ('/'), quoteChar] [] = l := by
  simp [replaceFirstAux, List.isPrefixOf]

lemma strip_trailing_quote : ∀ l : List Char, (∀ c ∈ l, isDigitChar c = true) →
    replaceFirstAux (l ++ [quoteChar]) [quoteChar] [] = l := by
  intro l h
  induction l with
  | nil => simp [replaceFirstAux, List.isPrefixOf]
  | cons c t ih =>
    have hc : isDigitChar c = true := h c (List.mem_cons_self _ _)
    have hq : (quoteChar == c) = false := by
      rw [beq_eq_false_iff_ne]
      intro hqc
      rw [← hqc] at hc
      exact absurd hc (by decide)
    simp only [List.cons_append, replaceFirstAux, List.isPrefixOf, hq, Bool.false_and,
      Bool.false_eq_true, if_false, List.append_eq]
    rw [ih (fun x hx => h x (List.mem_cons_of_mem _ hx))]

lemma versionTag_data (n : Nat) :
    (versionTag n).data = ('W') :: ('/') :: quoteChar :: (natDigitsAux (n + 1) n ++ [quoteChar]) := rfl

/-- Stripping and re-parsing a canonical tag recovers the counter, and the
advance re-encodes the successor. -/
theorem nextVersion_versionTag (n : Nat) :
    nextVersion (some (versionTag n)) = versionTag (n + 1) := by
  obtain ⟨hne, hdig, _⟩ := natDigitsAux_spec (n + 1) n (by omega)
  have h1 : replaceFirst (versionTag n) wQuote ("") = String.mk (natDigitsAux (n + 1) n ++ [quoteChar]) := by
    show String.mk (replaceFirstAux (versionTag n).data wQuote.data ("").data) = _
    rw [versionTag_data]
    rw [show wQuote.data = [('W'), ('/'), quoteChar] from rfl]
    rw [show ("").data = ([] : List Char) from rfl]
    rw [strip_wquote]
  have h2 : replaceFirst (String.mk (natDigitsAux (n + 1) n ++ [quoteChar])) quoteStr ("")
      = String.mk (natDigitsAux (n + 1) n) := by
    show String.mk (replaceFirstAux _ _ _) = _
    rw [show (String.mk (natDigitsAux (n + 1) n ++ [quoteChar])).data
        = natDigitsAux (n + 1) n ++ [quoteChar] from rfl]
    rw [show quoteStr.data = [quoteChar] from rfl]
    rw [show ("").data = ([] : List Char) from rfl]
    rw [strip_trailing_quote (natDigitsAux (n + 1) n) hdig]
  have hne' : String.mk (natDigitsAux (n + 1) n) ≠ ("") := by
    intro hc
    exact hne (by simpa using congrArg String.data hc)
  have hparse : parseIntJS (String.mk (natDigitsAux (n + 1) n)) = some (n : Int) := by
    rw [parseIntJS]
    exact parseIntChars_natDigits n
  simp only [nextVersion, h1, h2, if_neg hne', hparse]
  have habs : ((n : Int) + 1).natAbs = n + 1 := by omega
  have hpos : ¬((n : Int) + 1 < 0) := by omega
  rw [intPrint, if_neg hpos, habs]
  rfl

/-! ## Claim C3: entitlement-grant reconciliation -/

/-- C3: for every stored principal and every patch entitlements list
processed in order, an `add` of an already-granted value changes nothing, an
`add` of a new value appends a grant with display defaulting to the value,
type to `License` and primary to `false`, a `remove` of an absent value is a
no-op, a later entry on the same value overrides an earlier one (add then
remove of the same value nets to no grant with that value), and two adds of
the same value net exactly one grant. -/
theorem c3_entitlement_reconciliation :
    (∀ (gs : List Grant) (e : PatchEntry), e.operation = some ("add") →
      (∃ g ∈ gs, g.value = e.value) → applyEntitlementOp gs e = gs)
    ∧ (∀ (gs : List Grant) (e : PatchEntry), e.operation = some ("add") →
      (∀ g ∈ gs, g.value ≠ e.value) →
      applyEntitlementOp gs e = gs ++ [⟨e.value, jsOrStr e.display e.value,
        jsOrStr e.type ("License"), some (e.primary.getD false)⟩])
    ∧ (∀ (gs : List Grant) (e : PatchEntry), e.operation = some ("remove") →
      (∀ g ∈ gs, g.value ≠ e.value) → applyEntitlementOp gs e = gs)
    ∧ (∀ (gs : List Grant) (e1 e2 : PatchEntry), e1.operation = some ("add") →
      e2.operation = some ("remove") → e2.value = e1.value →
      ∀ g ∈ applyEntitlementOps gs [e1, e2], g.value ≠ e1.value)
    ∧ (∀ (gs : List Grant) (e1 e2 : PatchEntry), e1.operation = some ("add") →
      e2.operation = some ("add") → e2.value = e1.value →
      (∀ g ∈ gs, g.value ≠ e1.value) →
      (applyEntitlementOps gs [e1, e2]).countP (fun g => g.value == e1.value) = 1) := by
  refine ⟨?_, ?_, ?_, ?_, ?_⟩
  · intro gs e hop hex
    have hany : (gs.any fun g => g.value == e.value) = true := by
      obtain ⟨g, hg, hv⟩ := hex
      exact List.any_eq_true.mpr ⟨g, hg, by simp [hv]⟩
    simp [applyEntitlementOp, hop, hany]
  · intro gs e hop hnone
    have hany : (gs.any fun g => g.value == e.value) = false :=
      List.any_eq_false.mpr (fun g hg => by simp [hnone g hg])
    simp [applyEntitlementOp, hop, hany, mkGrant]
  · intro gs e hop hnone
    simp only [applyEntitlementOp, hop]
    rw [if_neg (by decide), if_pos (by decide)]
    exact List.filter_eq_self.mpr (fun g hg => by simp [hnone g hg])
  · intro gs e1 e2 h1 h2 hv g hm
    simp only [applyEntitlementOps, List.foldl_cons, List.foldl_nil] at hm
    rw [show applyEntitlementOp (applyEntitlementOp gs e1) e2
        = (applyEntitlementOp gs e1).filter (fun g => !(g.value == e2.value)) from by
      simp only [applyEntitlementOp, h2]
      rw [if_neg (by decide), if_pos (by decide)]] at hm
    rw [List.mem_filter] at hm
    intro hc
    rw [← hv] at hc
    simp [hc] at hm
  · intro gs e1 e2 h1 h2 hv hnone
    have hfalse : (gs.any fun g => g.value == e1.value) = false :=
      List.any_eq_false.mpr (fun g hg => by simp [hnone g hg])
    have step1 : applyEntitlementOp gs e1 = gs ++ [mkGrant e1] := by
      simp [applyEntitlementOp, h1, hfalse, mkGrant]
    have hmem : ((gs ++ [mkGrant e1]).any fun g => g.value == e2.value) = true :=
      List.any_eq_true.mpr ⟨mkGrant e1, by simp, by simp [mkGrant, hv]⟩
    have step2 : applyEntitlementOp (gs ++ [mkGrant e1]) e2 = gs ++ [mkGrant e1] := by
      simp [applyEntitlementOp, h2, hmem]
    simp only [applyEntitlementOps, List.foldl_cons, List.foldl_nil, step1, step2]
    rw [List.countP_append, List.countP_eq_zero.mpr (fun g hg => by simp [hnone g hg])]
    simp [List.countP_cons, mkGrant]

/-- C3 witness: the five parts of `c3_entitlement_reconciliation`
instantiated on concrete grant lists and patch entries. -/
theorem c3_entitlement_reconciliation_witness :
    applyEntitlementOp [⟨("e-1"), ("d"), ("License"), some false⟩]
        ⟨some ("add"), ("e-1"), none, none, none⟩ = [⟨("e-1"), ("d"), ("License"), some false⟩]
    ∧ applyEntitlementOp [] ⟨some ("add"), ("e-1"), none, none, none⟩
        = [] ++ [⟨("e-1"), jsOrStr none ("e-1"), jsOrStr none ("License"), some ((none : Option Bool).getD false)⟩]
    ∧ applyEntitlementOp [⟨("x"), ("x"), ("License"), none⟩]
        ⟨some ("remove"), ("e-1"), none, none, none⟩ = [⟨("x"), ("x"), ("License"), none⟩]
    ∧ (⟨("x"), ("x"), ("License"), none⟩ : Grant).value ≠ ("e-1")
    ∧ (applyEntitlementOps [] [⟨some ("add"), ("e-1"), none, none, none⟩,
        ⟨some ("add"), ("e-1"), none, none, none⟩]).countP (fun g => g.value == ("e-1")) = 1 := by
  refine ⟨?_, ?_, ?_, ?_, ?_⟩
  · exact c3_entitlement_reconciliation.1 _ _ rfl
      ⟨⟨("e-1"), ("d"), ("License"), some false⟩, by simp, rfl⟩
  · exact c3_entitlement_reconciliation.2.1 _ _ rfl (by intro g hg; simp at hg)
  · exact c3_entitlement_reconciliation.2.2.1 _ _ rfl
      (by intro g hg; simp at hg; simp [hg])
  · exact c3_entitlement_reconciliation.2.2.2.1 [⟨("x"), ("x"), ("License"), none⟩]
      ⟨some ("add"), ("e-1"), none, none, none⟩ ⟨some ("remove"), ("e-1"), none, none, none⟩
      rfl rfl rfl ⟨("x"), ("x"), ("License"), none⟩ (by decide)
  · exact c3_entitlement_reconciliation.2.2.2.2 [] ⟨some ("add"), ("e-1"), none, none, none⟩
      ⟨some ("add"), ("e-1"), none, none, none⟩ rfl rfl rfl (by intro g hg; simp at hg)

/-! ## Claim C4: metadata advance on update -/

/-- C4 counterexample: a user whose stored version tag is the malformed
string `abc` is updated to version `W/"NaN"`, not to `W/"1"`, because
`parseInt('abc')` is `NaN` rather than `0`; so a malformed prior tag is not
treated as `n = 0` as the claim states. -/
theorem c4_malformed_version_counterexample :
    modifyUser [userAbc] ("u1") {} ("t1")
      = Except.ok ([{ userAbc with meta := some ⟨("User"), ("t0"), ("t1"), some ("W/\"NaN\"")⟩ }],
          { userAbc with meta := some ⟨("User"), ("t0"), ("t1"), some ("W/\"NaN\"")⟩ })
    ∧ ("W/\"NaN\"") ≠ ("W/\"1\"") := by
  refine ⟨by decide, by decide⟩

/-- C4 (amended): on every successful update of a record that has metadata,
`lastModified` becomes the call's timestamp and the version becomes
`nextVersion` of the prior tag, which maps the canonical tag `W/"<n>"` to
`W/"<n+1>"` (in particular `W/"1"` to `W/"2"`) and treats a missing or empty
prior tag as `0`; a malformed non-empty tag with no leading integer yields
`W/"NaN"` instead of being treated as `0`. -/
theorem c4_version_advance :
    (∀ (users : List User) (id : String) (sd : UserScim) (now : String) (u : User) (m : Meta),
      users.find? (fun v => v.id == id) = some u → u.meta = some m →
      modifyUser users id sd now
        = Except.ok (users.map (fun v => if v.id == id then applyUserPatch u sd now else v),
                     applyUserPatch u sd now)
      ∧ (applyUserPatch u sd now).meta = some (stampMeta m now))
    ∧ (∀ (groups : List GroupRec) (id : String) (sd : GroupScim) (now : String)
        (gr : GroupRec) (m : Meta),
      groups.find? (fun v => v.id == id) = some gr → gr.meta = some m →
      modifyGroup groups id sd now
        = Except.ok (groups.map (fun v => if v.id == id then applyGroupPatch gr sd now else v),
                     applyGroupPatch gr sd now)
      ∧ (applyGroupPatch gr sd now).meta = some (stampMeta m now))
    ∧ (∀ (m : Meta) (now : String), (stampMeta m now).lastModified = now ∧
        (stampMeta m now).version = some (nextVersion m.version))
    ∧ (∀ n : Nat, nextVersion (some (versionTag n)) = versionTag (n + 1))
    ∧ nextVersion none = ("W/\"1\"")
    ∧ nextVersion (some ("")) = ("W/\"1\"")
    ∧ nextVersion (some ("W/\"1\"")) = ("W/\"2\"") := by
  refine ⟨?_, ?_, ?_, nextVersion_versionTag, by decide, by decide, by decide⟩
  · intro users id sd now u m hfind hmeta
    have hm2 : (mergeUserScim (reconcileEntitlements u sd.entitlements) sd).meta = some m := by
      cases h : sd.entitlements <;> simp [mergeUserScim, reconcileEntitlements, h, hmeta]
    refine ⟨by simp only [modifyUser, hfind], ?_⟩
    rw [applyUserPatch, stampUserMeta, hm2]
  · intro groups id sd now gr m hfind hmeta
    have hm2 : (mergeGroupScim gr sd).meta = some m := by
      simp [mergeGroupScim, hmeta]
    refine ⟨by simp only [modifyGroup, hfind], ?_⟩
    rw [applyGroupPatch, stampGroupMeta, hm2]
  · intro m now
    exact ⟨rfl, rfl⟩

/-- C4 witness: the user and group halves of `c4_version_advance` applied to
one-record collections whose version is `W/"1"`, plus the canonical advance
at `n = 1`. -/
theorem c4_version_advance_witness :
    (modifyUser [userV1] ("u1") {} ("t1")
      = Except.ok (([userV1]).map (fun v => if v.id == ("u1") then applyUserPatch userV1 {} ("t1") else v),
                   applyUserPatch userV1 {} ("t1"))
      ∧ (applyUserPatch userV1 {} ("t1")).meta = some (stampMeta (metaV1 ("User")) ("t1")))
    ∧ (modifyGroup [groupV1] ("g1") {} ("t1")
      = Except.ok (([groupV1]).map (fun v => if v.id == ("g1") then applyGroupPatch groupV1 {} ("t1") else v),
                   applyGroupPatch groupV1 {} ("t1"))
      ∧ (applyGroupPatch groupV1 {} ("t1")).meta = some (stampMeta (metaV1 ("Group")) ("t1")))
    ∧ nextVersion (some (versionTag 1)) = versionTag 2 := by
  refine ⟨?_, ?_, c4_version_advance.2.2.2.1 1⟩
  · exact c4_version_advance.1 _ ("u1") {} ("t1") userV1 _ (by decide) rfl
  · exact c4_version_advance.2.1 _ ("g1") {} ("t1") groupV1 _ (by decide) rfl

/-! ## Claim C5: update of a nonexistent id -/

/-- C5: updating a nonexistent id fails with the `notFound`-tagged error
naming the id, for users, groups and entitlements alike; the embedding
returns the error without constructing any new collection (the source throws
before touching the record), so the collection is left exactly as it was. -/
theorem c5_modify_not_found :
    (∀ (users : List User) (id : String) (sd : UserScim) (now : String),
      (∀ u ∈ users, u.id ≠ id) →
      modifyUser users id sd now = Except.error (notFoundErr ("modifyUser") ("user") id))
    ∧ (∀ (groups : List GroupRec) (id : String) (sd : GroupScim) (now : String),
      (∀ gr ∈ groups, gr.id ≠ id) →
      modifyGroup groups id sd now = Except.error (notFoundErr ("modifyGroup") ("group") id))
    ∧ (∀ (ents : List Ent) (id : String) (sd : EntScim),
      (∀ e ∈ ents, e.id ≠ id) →
      modifyEntitlement ents id sd
        = Except.error (notFoundErr ("modifyEntitlement") ("entitlement") id)) := by
  refine ⟨?_, ?_, ?_⟩
  · intro users id sd now h
    have hf : users.find? (fun v => v.id == id) = none :=
      List.find?_eq_none.mpr (fun u hu => by simp [h u hu])
    simp [modifyUser, hf]
  · intro groups id sd now h
    have hf : groups.find? (fun v => v.id == id) = none :=
      List.find?_eq_none.mpr (fun gr hgr => by simp [h gr hgr])
    simp [modifyGroup, hf]
  · intro ents id sd h
    have hf : ents.find? (fun v => v.id == id) = none :=
      List.find?_eq_none.mpr (fun e he => by simp [h e he])
    simp [modifyEntitlement, hf]

/-- C5 witness: the three parts of `c5_modify_not_found` applied to
one-record collections and an id that is not present. -/
theorem c5_modify_not_found_witness :
    modifyUser [userV1] ("zz") {} ("t1")
      = Except.error (notFoundErr ("modifyUser") ("user") ("zz"))
    ∧ modifyGroup [groupV1] ("zz") {} ("t1")
      = Except.error (notFoundErr ("modifyGroup") ("group") ("zz"))
    ∧ modifyEntitlement testEntitlements ("zz") {}
      = Except.error (notFoundErr ("modifyEntitlement") ("entitlement") ("zz")) := by
  refine ⟨?_, ?_, ?_⟩
  · exact c5_modify_not_found.1 [userV1] ("zz") {} ("t1") (by intro u hu; simp at hu; simp [hu, userV1])
  · exact c5_modify_not_found.2.1 [groupV1] ("zz") {} ("t1") (by intro g hg; simp at hg; simp [hg, groupV1])
  · exact c5_modify_not_found.2.2 testEntitlements ("zz") {} (by decide)

/-! ## Claim C6: create-time uniqueness and fresh metadata -/

/-- C6: creating a principal whose login name is already stored (exact,
case-sensitive match) fails with the `uniqueness`-tagged error naming the
conflicting value and, the embedding being pure on the error path, leaves
the collection unchanged; a successful create appends a record whose
metadata has `created = lastModified = now` and version `W/"1"`. -/
theorem c6_create_uniqueness :
    (∀ (users : List User) (sd : CreateUserData) (newId now s : String),
      sd.userName = some s → s ≠ ("") → (∃ u ∈ users, u.userName = s) →
      createUser users sd newId now = Except.error ⟨some ("uniqueness"),
        ("createUser error: user with userName \x27") ++ s ++ ("\x27 already exists")⟩)
    ∧ (∀ (users : List User) (sd : CreateUserData) (newId now s : String),
      sd.userName = some s → s ≠ ("") → (∀ u ∈ users, u.userName ≠ s) →
      (∀ u ∈ users, u.id ≠ newId) →
      createUser users sd newId now
        = Except.ok (users ++ [newUserRecord sd newId now], newUserRecord sd newId now)
      ∧ (newUserRecord sd newId now).meta = some ⟨("User"), now, now, some ("W/\"1\"")⟩) := by
  constructor
  · intro users sd newId now s hs hne hex
    have hfal : jsFalsyStr (some s) = false := by simp [jsFalsyStr, hne]
    have hany : (users.any fun u => u.userName == s) = true := by
      obtain ⟨u, hu, huv⟩ := hex
      exact List.any_eq_true.mpr ⟨u, hu, by simp [huv]⟩
    simp only [createUser, hs, Option.getD_some, hfal, Bool.false_eq_true, if_false,
      hany, if_true]
  · intro users sd newId now s hs hne hname hid
    have hfal : jsFalsyStr (some s) = false := by simp [jsFalsyStr, hne]
    have hany : (users.any fun u => u.userName == s) = false :=
      List.any_eq_false.mpr (fun u hu => by simp [hname u hu])
    have hdup : (users.any fun v => v.id == newId || v.userName == s) = false :=
      List.any_eq_false.mpr (fun u hu => by simp [hname u hu, hid u hu])
    refine ⟨?_, rfl⟩
    simp only [createUser, hs, Option.getD_some, hfal, Bool.false_eq_true, if_false,
      hany, hdup]

/-- C6 witness: `c6_create_uniqueness` applied to a concrete duplicate
create and to a concrete successful create. -/
theorem c6_create_uniqueness_witness :
    createUser [userV1] { userName := some ("bj") } ("id2") ("t1")
      = Except.error ⟨some ("uniqueness"),
        ("createUser error: user with userName \x27") ++ ("bj") ++ ("\x27 already exists")⟩
    ∧ (createUser [] { userName := some ("bj") } ("id2") ("t1")
        = Except.ok ([] ++ [newUserRecord { userName := some ("bj") } ("id2") ("t1")],
                     newUserRecord { userName := some ("bj") } ("id2") ("t1"))
      ∧ (newUserRecord { userName := some ("bj") } ("id2") ("t1")).meta
          = some ⟨("User"), ("t1"), ("t1"), some ("W/\"1\"")⟩) := by
  constructor
  · exact c6_create_uniqueness.1 [userV1] _ ("id2") ("t1") ("bj") rfl (by decide)
      ⟨userV1, by simp, by decide⟩
  · exact c6_create_uniqueness.2 [] _ ("id2") ("t1") ("bj") rfl (by decide)
      (by intro u hu; simp at hu) (by intro u hu; simp at hu)

/-! ## Claim C9: login-name uniqueness across creates -/

/-- C9 counterexample: the create-time uniqueness check is an exact
case-sensitive `findOne`, so creating `Alice` and then `alice` both succeed
and the collection reaches a state holding two distinct principals whose
login names are equal case-insensitively — the claimed case-insensitive
uniqueness invariant does not hold. -/
theorem c9_case_uniqueness_counterexample :
    createUser [] { userName := some ("Alice") } ("id1") ("t0") = Except.ok ([aliceUpper], aliceUpper)
    ∧ createUser [aliceUpper] { userName := some ("alice") } ("id2") ("t0")
        = Except.ok ([aliceUpper, aliceLower], aliceLower)
    ∧ lowerStr aliceUpper.userName = lowerStr aliceLower.userName
    ∧ aliceUpper ≠ aliceLower := by
  refine ⟨by decide, by decide, by decide, by decide⟩

/-- C9 (amended): the uniqueness `createUser` actually preserves is exact
(case-sensitive): if all stored login names are pairwise distinct as
strings, they still are after any successful create; two principals whose
login names differ only in case can nevertheless coexist. -/
theorem c9_login_uniqueness_exact :
    ∀ (users : List User) (sd : CreateUserData) (newId now : String)
      (users2 : List User) (u : User),
      List.Pairwise (fun a b => a.userName ≠ b.userName) users →
      createUser users sd newId now = Except.ok (users2, u) →
      List.Pairwise (fun a b => a.userName ≠ b.userName) users2 := by
  intro users sd newId now users2 u hpw hok
  unfold createUser at hok
  cases h1 : jsFalsyStr sd.userName with
  | true => rw [h1] at hok; simp at hok
  | false =>
    rw [h1] at hok
    simp only [Bool.false_eq_true, if_false] at hok
    cases h2 : (users.any fun v => v.userName == sd.userName.getD ("")) with
    | true => rw [h2] at hok; simp at hok
    | false =>
      rw [h2] at hok
      simp only [Bool.false_eq_true, if_false] at hok
      cases h3 : (users.any fun v => v.id == newId || v.userName == sd.userName.getD ("")) with
      | true => rw [h3] at hok; simp at hok
      | false =>
        rw [h3] at hok
        simp only [Bool.false_eq_true, if_false, Except.ok.injEq, Prod.mk.injEq] at hok
        obtain ⟨h4, h5⟩ := hok
        subst h4
        rw [List.pairwise_append]
        refine ⟨hpw, List.pairwise_singleton _ _, ?_⟩
        intro a ha b hb
        simp only [List.mem_singleton] at hb
        subst hb
        have := List.any_eq_false.mp h2 a ha
        simpa [newUserRecord] using this

/-- C9 witness: `c9_login_uniqueness_exact` applied to the empty collection
and one concrete successful create. -/
theorem c9_login_uniqueness_exact_witness :
    List.Pairwise (fun a b : User => a.userName ≠ b.userName) [aliceUpper] :=
  c9_login_uniqueness_exact [] { userName := some ("Alice") } ("id1") ("t0")
    [aliceUpper] aliceUpper List.Pairwise.nil (by decide)

/-! ## Claim C7: compound filters are rejected -/

/-- C7: when a query carries a `rawFilter` and no simple filter operator,
each read operation fails with the advanced-filtering rejection (a plain
error carrying the compound expression, with no partial evaluation), and —
the read path being pure over the collection argument — the collection is
untouched. -/
theorem c7_raw_filter_rejected :
    (∀ (users : List User) (g : GetObj) (r : String),
      g.operator = none → g.rawFilter = some r →
      getUsers users g = Except.error ⟨none, rawFilterMsg ("getUsers") r⟩)
    ∧ (∀ (groups : List GroupRec) (g : GetObj) (r : String),
      g.operator = none → g.rawFilter = some r →
      getGroups groups g = Except.error ⟨none, rawFilterMsg ("getGroups") r⟩)
    ∧ (∀ (ents : List Ent) (g : GetObj) (r : String),
      g.operator = none → g.rawFilter = some r →
      getEntitlements ents g = Except.error ⟨none, rawFilterMsg ("getEntitlements") r⟩) := by
  refine ⟨?_, ?_, ?_⟩
  · intro users g r hop hrf
    simp [getUsers, usersMatch, translateGetObj, hop, hrf]
  · intro groups g r hop hrf
    simp [getGroups, groupsMatch, translateGetObj, hop, hrf]
  · intro ents g r hop hrf
    simp [getEntitlements, entsMatch, translateGetObj, hop, hrf]

/-- C7 witness: `c7_raw_filter_rejected` applied to concrete collections
and a concrete compound filter expression. -/
theorem c7_raw_filter_rejected_witness :
    getUsers [userV1] { rawFilter := some ("userName eq \x22bj\x22 or id pr") }
      = Except.error ⟨none, rawFilterMsg ("getUsers") ("userName eq \x22bj\x22 or id pr")⟩
    ∧ getGroups [groupV1] { rawFilter := some ("a and b") }
      = Except.error ⟨none, rawFilterMsg ("getGroups") ("a and b")⟩
    ∧ getEntitlements testEntitlements { rawFilter := some ("a and b") }
      = Except.error ⟨none, rawFilterMsg ("getEntitlements") ("a and b")⟩ := by
  refine ⟨?_, ?_, ?_⟩
  · exact c7_raw_filter_rejected.1 [userV1] _ _ rfl rfl
  · exact c7_raw_filter_rejected.2.1 [groupV1] _ _ rfl rfl
  · exact c7_raw_filter_rejected.2.2 testEntitlements _ _ rfl rfl

/-! ## Claim C8: filter translation and the caller's filter object -/

/-- C8 counterexample: translating a `co` filter does not leave the
caller-supplied filter object unchanged — the source assigns
`getObj.operator = '$contains'` into it, so after the call the object
differs from the one the caller passed. -/
theorem c8_translate_mutates_counterexample :
    translateGetObj ("getUsers") c8Query
      = Except.ok { c8Query with operator := some ("$contains") }
    ∧ ¬(translateGetObj ("getUsers") c8Query = Except.ok c8Query) := by
  refine ⟨by decide, by decide⟩

/-- C8 (amended): translation is a pure, deterministic function of the
filter object (no effect reaches anything else), but it rewrites the object
in place: on success only the `operator` (and for `sw`/`ew` the `value`)
fields may change, every other field is left untouched, and an absent
operator leaves the object exactly as supplied. -/
theorem c8_translate_frame :
    (∀ (act : String) (g g2 : GetObj), translateGetObj act g = Except.ok g2 →
      g2.attrib = g.attrib ∧ g2.rawFilter = g.rawFilter ∧
      g2.startIndex = g.startIndex ∧ g2.count = g.count)
    ∧ (∀ (act : String) (g : GetObj), g.operator = none →
      translateGetObj act g = Except.ok g) := by
  constructor
  · intro act g g2 h
    rcases g with ⟨op, attr, v, rf, si, cnt⟩
    cases op with
    | none =>
      simp only [translateGetObj, Except.ok.injEq] at h
      subst h
      exact ⟨rfl, rfl, rfl, rfl⟩
    | some o =>
      simp only [translateGetObj] at h
      split_ifs at h <;> simp only [Except.ok.injEq] at h <;> subst h <;>
        exact ⟨rfl, rfl, rfl, rfl⟩
  · intro act g hop
    rcases g with ⟨op, attr, v, rf, si, cnt⟩
    simp only at hop
    subst hop
    rfl

/-- C8 witness: the frame part of `c8_translate_frame` applied to the
concrete translated query, and the no-operator part applied to an
operator-free query. -/
theorem c8_translate_frame_witness :
    (({ c8Query with operator := some ("$contains") } : GetObj).attrib = c8Query.attrib
      ∧ ({ c8Query with operator := some ("$contains") } : GetObj).rawFilter = c8Query.rawFilter
      ∧ ({ c8Query with operator := some ("$contains") } : GetObj).startIndex = c8Query.startIndex
      ∧ ({ c8Query with operator := some ("$contains") } : GetObj).count = c8Query.count)
    ∧ translateGetObj ("getUsers") { rawFilter := some ("x") }
        = Except.ok { rawFilter := some ("x") } := by
  constructor
  · exact c8_translate_frame.1 ("getUsers") c8Query _ (by decide)
  · exact c8_translate_frame.2 ("getUsers") { rawFilter := some ("x") } rfl

/-! ## Claim C1: the unique-lookup branch -/

/-- C1 counterexample: `type` is an identifying attribute of entitlements in
the unique-lookup branch, yet two of the seeded entitlements share the type
`License`, so the "unique lookup" returns two records — the claimed
zero-or-one cardinality of the result fails. -/
theorem c1_unique_lookup_counterexample :
    getEntitlements testEntitlements c1Query = Except.ok ⟨[entPro, entBasic], 2⟩
    ∧ ¬((2 : Nat) ≤ 1) := by
  refine ⟨by decide, by decide⟩

/-- C1 (amended): for an `eq` filter on one of the kind's identifying
attributes the executor runs the unique-lookup query — exact (case-sensitive)
match on the identifier, anchored case-insensitive match on every other
identifying attribute — and returns exactly the records so matched, which
can number more than one (e.g. the seeded entitlement type `License`). -/
theorem c1_unique_lookup_matching :
    (∀ (users : List User) (g : GetObj) (s : String),
      g.operator = some ("eq") → g.attrib ∈ userIdentifying → g.value = Value.str s →
      usersMatch users g = Except.ok (uniqueFindUser users g.attrib (Value.str s)))
    ∧ (∀ (users : List User) (s : String),
      uniqueFindUser users ("id") (Value.str s) = users.filter (fun u => u.id == s))
    ∧ (∀ (users : List User) (attr s : String), attr ≠ ("id") →
      uniqueFindUser users attr (Value.str s)
        = users.filter (fun u => lowerStr (fieldOrUndef (User.field u attr)) == lowerStr s))
    ∧ (∀ (groups : List GroupRec) (g : GetObj) (s : String),
      g.operator = some ("eq") → g.attrib ∈ groupIdentifying → g.value = Value.str s →
      groupsMatch groups g = Except.ok (uniqueFindGroup groups g.attrib (Value.str s)))
    ∧ (∀ (groups : List GroupRec) (s : String),
      uniqueFindGroup groups ("id") (Value.str s) = groups.filter (fun gr => gr.id == s))
    ∧ (∀ (groups : List GroupRec) (attr s : String), attr ≠ ("id") →
      uniqueFindGroup groups attr (Value.str s)
        = groups.filter (fun gr => lowerStr (fieldOrUndef (GroupRec.field gr attr)) == lowerStr s))
    ∧ (∀ (ents : List Ent) (g : GetObj) (s : String),
      g.operator = some ("eq") → g.attrib ∈ entIdentifying → g.value = Value.str s →
      entsMatch ents g = Except.ok (uniqueFindEnt ents g.attrib (Value.str s)))
    ∧ (∀ (ents : List Ent) (s : String),
      uniqueFindEnt ents ("id") (Value.str s) = ents.filter (fun e => e.id == s))
    ∧ (∀ (ents : List Ent) (attr s : String), attr ≠ ("id") →
      uniqueFindEnt ents attr (Value.str s)
        = ents.filter (fun e => lowerStr (fieldOrUndef (Ent.field e attr)) == lowerStr s)) := by
  refine ⟨?_, ?_, ?_, ?_, ?_, ?_, ?_, ?_, ?_⟩
  · intro users g s hop hattr hval
    rcases g with ⟨op, attr, v, rf, si, cnt⟩
    obtain rfl : op = some ("eq") := hop
    obtain rfl : v = Value.str s := hval
    have hattr2 : attr ∈ [("id"), ("userName"), ("externalId")] := hattr
    fin_cases hattr2 <;> rfl
  · intro users s
    rfl
  · intro users attr s h
    rw [uniqueFindUser, if_neg h]
    rfl
  · intro groups g s hop hattr hval
    rcases g with ⟨op, attr, v, rf, si, cnt⟩
    obtain rfl : op = some ("eq") := hop
    obtain rfl : v = Value.str s := hval
    have hattr2 : attr ∈ [("id"), ("displayName"), ("externalId")] := hattr
    fin_cases hattr2 <;> rfl
  · intro groups s
    rfl
  · intro groups attr s h
    rw [uniqueFindGroup, if_neg h]
    rfl
  · intro ents g s hop hattr hval
    rcases g with ⟨op, attr, v, rf, si, cnt⟩
    obtain rfl : op = some ("eq") := hop
    obtain rfl : v = Value.str s := hval
    have hattr2 : attr ∈ [("id"), ("displayName"), ("type")] := hattr
    fin_cases hattr2 <;> rfl
  · intro ents s
    rfl
  · intro ents attr s h
    rw [uniqueFindEnt, if_neg h]
    rfl

/-- C1 witness: the hypothesis-carrying parts of `c1_unique_lookup_matching`
applied to concrete collections, attributes and values. -/
theorem c1_unique_lookup_matching_witness :
    usersMatch [userV1] c1qUser
      = Except.ok (uniqueFindUser [userV1] ("userName") (Value.str ("BJ")))
    ∧ uniqueFindUser [userV1] ("userName") (Value.str ("BJ"))
      = ([userV1]).filter (fun u => lowerStr (fieldOrUndef (User.field u ("userName"))) == lowerStr ("BJ"))
    ∧ groupsMatch [groupV1] c1qGroup
      = Except.ok (uniqueFindGroup [groupV1] ("id") (Value.str ("g1")))
    ∧ uniqueFindGroup [groupV1] ("externalId") (Value.str ("X"))
      = ([groupV1]).filter (fun gr => lowerStr (fieldOrUndef (GroupRec.field gr ("externalId"))) == lowerStr ("X"))
    ∧ entsMatch testEntitlements c1qEnt
      = Except.ok (uniqueFindEnt testEntitlements ("displayName") (Value.str ("pro license")))
    ∧ uniqueFindEnt testEntitlements ("type") (Value.str ("License"))
      = testEntitlements.filter (fun e => lowerStr (fieldOrUndef (Ent.field e ("type"))) == lowerStr ("License")) := by
  refine ⟨?_, ?_, ?_, ?_, ?_, ?_⟩
  · exact c1_unique_lookup_matching.1 [userV1] c1qUser ("BJ") rfl (by decide) rfl
  · exact c1_unique_lookup_matching.2.2.1 [userV1] ("userName") ("BJ") (by decide)
  · exact c1_unique_lookup_matching.2.2.2.1 [groupV1] c1qGroup ("g1") rfl (by decide) rfl
  · exact c1_unique_lookup_matching.2.2.2.2.2.1 [groupV1] ("externalId") ("X") (by decide)
  · exact c1_unique_lookup_matching.2.2.2.2.2.2.1 testEntitlements c1qEnt ("pro license") rfl
      (by decide) rfl
  · exact c1_unique_lookup_matching.2.2.2.2.2.2.2.2 testEntitlements ("type") ("License") (by decide)

/-! ## Claim C2: pagination -/

/-- C2: for every query whose match phase yields `arr`, the read operation
reports `totalResults = arr.length` (the count before pagination) and
`Resources` equal to the zero-based slice
`[max(0, startIndex-1), max(0, startIndex-1)+count)` of `arr`, with
`startIndex` defaulting to 1 and `count` to 100; a window starting at or
past the end of the matches yields an empty `Resources` while
`totalResults` is unchanged. -/
theorem c2_pagination :
    (∀ (users : List User) (g : GetObj) (arr : List User),
      usersMatch users g = Except.ok arr →
      getUsers users g = Except.ok ⟨paginate arr g.startIndex g.count, arr.length⟩)
    ∧ (∀ (ents : List Ent) (g : GetObj) (arr : List Ent),
      entsMatch ents g = Except.ok arr →
      getEntitlements ents g = Except.ok ⟨paginate arr g.startIndex g.count, arr.length⟩)
    ∧ (∀ (α : Type) (l : List α) (si cnt : Option Nat),
      paginate l si cnt = (l.drop (jsOrNat si 1 - 1)).take (jsOrNat cnt 100))
    ∧ (∀ (α : Type) (l : List α) (si cnt : Option Nat),
      l.length ≤ jsOrNat si 1 - 1 → paginate l si cnt = []) := by
  refine ⟨?_, ?_, ?_, ?_⟩
  · intro users g arr h
    simp [getUsers, h]
  · intro ents g arr h
    simp [getEntitlements, h]
  · intro α l si cnt
    rfl
  · intro α l si cnt h
    simp [paginate, List.drop_eq_nil_of_le h]

/-- C2 witness: `c2_pagination` applied to the unfiltered seeded
entitlements with `startIndex = 5, count = 10` (a window past the end of the
4 matches: empty page, `totalResults = 4`) and to a one-user collection with
default paging. -/
theorem c2_pagination_witness :
    getUsers [userV1] {} = Except.ok ⟨paginate [userV1] none none, ([userV1]).length⟩
    ∧ getEntitlements testEntitlements { startIndex := some 5, count := some 10 }
      = Except.ok ⟨paginate testEntitlements (some 5) (some 10), testEntitlements.length⟩
    ∧ paginate testEntitlements (some 5) (some 10)
      = (testEntitlements.drop (jsOrNat (some 5) 1 - 1)).take (jsOrNat (some 10) 100)
    ∧ paginate testEntitlements (some 5) (some 10) = [] := by
  refine ⟨?_, ?_, ?_, ?_⟩
  · exact c2_pagination.1 [userV1] {} [userV1] rfl
  · exact c2_pagination.2.1 testEntitlements _ testEntitlements rfl
  · exact c2_pagination.2.2.1 Ent testEntitlements (some 5) (some 10)
  · exact c2_pagination.2.2.2 Ent testEntitlements (some 5) (some 10) (by decide)

/-! ## Claim C10: falsy paging parameters -/

lemma translateGetObj_page (act : String) (g : GetObj) (a b : Option Nat) :
    translateGetObj act { g with startIndex := a, count := b }
      = (translateGetObj act g).map (fun h => { h with startIndex := a, count := b }) := by
  rcases g with ⟨op, attr, v, rf, si, cnt⟩
  cases op with
  | none => rfl
  | some o =>
    simp only [translateGetObj]
    split_ifs <;> rfl

lemma entsMatch_page (ents : List Ent) (g : GetObj) (a b : Option Nat) :
    entsMatch ents { g with startIndex := a, count := b } = entsMatch ents g := by
  unfold entsMatch
  rw [translateGetObj_page]
  cases htr : translateGetObj ("getEntitlements") g with
  | error e => rfl
  | ok g2 =>
    rcases g2 with ⟨op2, attr2, v2, rf2, si2, cnt2⟩
    cases op2 with
    | none => cases rf2 <;> rfl
    | some o2 => rfl

lemma usersMatch_page (users : List User) (g : GetObj) (a b : Option Nat) :
    usersMatch users { g with startIndex := a, count := b } = usersMatch users g := by
  unfold usersMatch
  rw [translateGetObj_page]
  cases htr : translateGetObj ("getUsers") g with
  | error e => rfl
  | ok g2 =>
    rcases g2 with ⟨op2, attr2, v2, rf2, si2, cnt2⟩
    cases op2 with
    | none => cases rf2 <;> rfl
    | some o2 => rfl

/-- C10: a `startIndex` of `0` and a `count` of `0` are treated exactly like
absent paging parameters, because the defaulting `startIndex || 1` and
`count || 100` tests JS falsiness rather than absence: the whole read
returns the same page as with no parameters, and a `count` of `0` yields up
to 100 records rather than an empty page. -/
theorem c10_zero_page_params :
    (∀ (ents : List Ent) (g : GetObj),
      getEntitlements ents { g with startIndex := some 0, count := some 0 }
        = getEntitlements ents { g with startIndex := none, count := none })
    ∧ (∀ (users : List User) (g : GetObj),
      getUsers users { g with startIndex := some 0, count := some 0 }
        = getUsers users { g with startIndex := none, count := none })
    ∧ (∀ (l : List Ent), paginate l (some 0) (some 0) = l.take 100)
    ∧ (∀ (l : List Ent), paginate l none none = l.take 100) := by
  refine ⟨?_, ?_, ?_, ?_⟩
  · intro ents g
    unfold getEntitlements
    rw [entsMatch_page ents g (some 0) (some 0), entsMatch_page ents g none none]
    cases htr : entsMatch ents g with
    | error e => rfl
    | ok arr => rfl
  · intro users g
    unfold getUsers
    rw [usersMatch_page users g (some 0) (some 0), usersMatch_page users g none none]
    cases htr : usersMatch users g with
    | error e => rfl
    | ok arr => rfl
  · intro l
    rfl
  · intro l
    rfl
